import Mathlib

/-!
A Lean model of the retrieval-augmented chat pipeline of a Vietnam
travel-assistant repository (files `utils.py`, `app.py`,
`gemini_mongo_chat.py`).

Modelling conventions:
* Python floats are modelled as rationals (`ℚ`).  The floating-point
  square root `x ** 0.5` used for vector magnitudes is abstracted as an
  arbitrary function parameter `sq : ℚ → ℚ`; no theorem below depends on
  its numeric value beyond `sq 0 = 0` where stated.
* External services (embedding backend, HTTP generation endpoint, the
  `$vectorSearch` aggregation stage, MD5 hashing) are abstracted as
  function parameters.  A single HTTP attempt is an `ApiResult`:
  a successful parse of `data.candidates[0].content.parts[0].text`,
  a `requests.exceptions.Timeout`, or any other exception
  (connection errors, `raise_for_status`, `KeyError`/`IndexError`
  while parsing).
* The MongoDB collection is modelled as Lean lists: cache documents
  (`is_cache: True`) as `List CacheEntry`, knowledge documents as
  `List Record`.  Mongo's scan order is the list order.
* Exceptions do not exist in the model: every modelled function is
  total, mirroring the source's catch-all handlers which convert
  exceptions into sentinel return values.
-/

/-- Outcome of one HTTP attempt against the generation endpoint. -/
inductive ApiResult where
  | success (text : String)
  | timeout
  | failure
  deriving DecidableEq

/-- Fixed fallback returned by `call_gemini_rest` when the final attempt
times out (`utils.py` line 180). -/
def timeoutFallback : String :=
  "Sorry, the API is taking too long. Please try again."

/-- Fixed fallback returned by `call_gemini_rest` when the retry loop is
exhausted by non-timeout errors (`utils.py` line 186). -/
def errorFallback : String :=
  "Sorry, an error occurred while contacting the AI. Please try again."

/-- Fixed fallback returned by `describe_image` after all attempts fail
(`utils.py` line 320). -/
def imageFallback : String :=
  "Sorry, I was unable to analyze the image after multiple attempts. Please try uploading a different image."

/-- The `for attempt in range(max_retries)` loop of `call_gemini_rest`
(`utils.py` lines 169-186), run over the list of attempt indices.
On success the parsed text is returned; a timeout retries unless this is
the final attempt (`attempt < max_retries - 1`), in which case the
timeout fallback is returned; any other error retries, and falling off
the end of the loop yields the error fallback. -/
def cg_go (backend : ℕ → ApiResult) (max_retries : ℕ) : List ℕ → String
  | [] => errorFallback
  | a :: rest =>
    match backend a with
    | ApiResult.success s => s
    | ApiResult.timeout =>
        if a < max_retries - 1 then cg_go backend max_retries rest
        else timeoutFallback
    | ApiResult.failure => cg_go backend max_retries rest

/-- Model of `call_gemini_rest(prompt, max_retries)` (`utils.py` lines
155-186).  `backend prompt attempt` is the outcome of the HTTP POST made
on the given attempt. -/
def call_gemini_rest (backend : String → ℕ → ApiResult) (prompt : String)
    (max_retries : ℕ) : String :=
  cg_go (backend prompt) max_retries (List.range max_retries)

/-- Number of HTTP attempts the `call_gemini_rest` loop performs (ghost
instrumentation of `cg_go`: one count per `requests.post`). -/
def cg_calls (backend : ℕ → ApiResult) (max_retries : ℕ) : List ℕ → ℕ
  | [] => 0
  | a :: rest =>
    match backend a with
    | ApiResult.success _ => 1
    | ApiResult.timeout =>
        if a < max_retries - 1 then 1 + cg_calls backend max_retries rest
        else 1
    | ApiResult.failure => 1 + cg_calls backend max_retries rest

/-- Attempt count of a full `call_gemini_rest` call. -/
def call_gemini_rest_calls (backend : String → ℕ → ApiResult)
    (prompt : String) (max_retries : ℕ) : ℕ :=
  cg_calls (backend prompt) max_retries (List.range max_retries)

/-- The retry loop of `describe_image` (`utils.py` lines 303-320): both
timeouts and other errors simply move to the next attempt, and falling
off the end of the loop yields the single image fallback string. -/
def di_go (backend : ℕ → ApiResult) : List ℕ → String
  | [] => imageFallback
  | a :: rest =>
    match backend a with
    | ApiResult.success s => s
    | ApiResult.timeout => di_go backend rest
    | ApiResult.failure => di_go backend rest

/-- Model of `describe_image(image_bytes, max_retries)` (`utils.py`
lines 275-320); the fixed payload built from the image bytes is folded
into `backend`. -/
def describe_image (backend : ℕ → ApiResult) (max_retries : ℕ) : String :=
  di_go backend (List.range max_retries)

/-- Number of HTTP attempts `describe_image` performs. -/
def di_calls (backend : ℕ → ApiResult) : List ℕ → ℕ
  | [] => 0
  | a :: rest =>
    match backend a with
    | ApiResult.success _ => 1
    | ApiResult.timeout => 1 + di_calls backend rest
    | ApiResult.failure => 1 + di_calls backend rest

/-- Attempt count of a full `describe_image` call. -/
def describe_image_calls (backend : ℕ → ApiResult) (max_retries : ℕ) : ℕ :=
  di_calls backend (List.range max_retries)

/-- Python `sum(a * b for a, b in zip(vec1, vec2))`. -/
def dotProduct (vec1 vec2 : List ℚ) : ℚ :=
  ((vec1.zip vec2).map fun p => p.1 * p.2).sum

/-- Python `sum(a ** 2 for a in vec)`. -/
def sumSquares (vec : List ℚ) : ℚ :=
  (vec.map fun a => a * a).sum

/-- Model of `cosine_similarity(vec1, vec2)` (`utils.py` lines 85-97).
`sq` abstracts the floating-point `x ** 0.5`; `sq (sumSquares v)` is the
magnitude of `v`. -/
def cosine_similarity (sq : ℚ → ℚ) (vec1 vec2 : List ℚ) : ℚ :=
  if vec1 = [] ∨ vec2 = [] ∨ vec1.length ≠ vec2.length then 0
  else
    let magnitude1 := sq (sumSquares vec1)
    let magnitude2 := sq (sumSquares vec2)
    if magnitude1 = 0 ∨ magnitude2 = 0 then 0
    else dotProduct vec1 vec2 / (magnitude1 * magnitude2)

/-- `SIMILARITY_THRESHOLD = 0.92` (`utils.py` line 17). -/
def SIMILARITY_THRESHOLD : ℚ := 92 / 100

/-- `CACHE_TTL_SECONDS = 3600` (`utils.py` line 16). -/
def CACHE_TTL_SECONDS : ℚ := 3600

/-- A document written by `cache_response` (`utils.py` lines 142-149),
as later read back by `find_cached_similar_response`.  `query_embedding`
is optional because the lookup loop guards on the key being present
(`utils.py` line 120). -/
structure CacheEntry where
  is_cache : Bool
  query : String
  query_embedding : Option (List ℚ)
  response : String
  cached_at : ℚ
  query_hash : String
  deriving DecidableEq

/-- The candidate set scanned by `find_cached_similar_response`
(`utils.py` lines 106-114): documents with `is_cache: True` whose
`cached_at` is at or after `now - CACHE_TTL_SECONDS`, limited to the
first 50 in scan order. -/
def eligible_cache_entries (now : ℚ) (store : List CacheEntry) :
    List CacheEntry :=
  (store.filter fun e =>
    e.is_cache && decide (now - CACHE_TTL_SECONDS ≤ e.cached_at)).take 50

/-- One iteration of the best-match loop (`utils.py` lines 119-124):
skip entries without a `query_embedding` key, otherwise update the
running best when the similarity strictly exceeds it. -/
def scan_step (sq : ℚ → ℚ) (q : List ℚ) (st : Option CacheEntry × ℚ)
    (e : CacheEntry) : Option CacheEntry × ℚ :=
  match e.query_embedding with
  | none => st
  | some v =>
      if st.2 < cosine_similarity sq q v then (some e, cosine_similarity sq q v)
      else st

/-- The whole best-match loop, folding `scan_step` over the candidates
from the starting state `(None, 0)`. -/
def scan_entries (sq : ℚ → ℚ) (q : List ℚ) :
    List CacheEntry → Option CacheEntry × ℚ → Option CacheEntry × ℚ
  | [], st => st
  | e :: rest, st => scan_entries sq q rest (scan_step sq q st e)

/-- Model of `find_cached_similar_response(query_embedding, collection)`
(`utils.py` lines 99-132).  `now` stands for `datetime.utcnow()`. -/
def find_cached_similar_response (sq : ℚ → ℚ) (q : List ℚ) (now : ℚ)
    (store : List CacheEntry) : Option CacheEntry :=
  let res := scan_entries sq q (eligible_cache_entries now store) (none, 0)
  if SIMILARITY_THRESHOLD ≤ res.2 ∧ res.1.isSome = true then res.1 else none

/-- Model of Python `str.strip()`: drop whitespace from both ends.
(Defined structurally over the character list so that it reduces on
concrete inputs.) -/
def pyStrip (s : String) : String :=
  String.mk (((s.data.dropWhile Char.isWhitespace).reverse.dropWhile
    Char.isWhitespace).reverse)

/-- Model of `compute_query_hash(query)` (`utils.py` lines 81-83); `md5`
abstracts the MD5 hex digest. -/
def compute_query_hash (md5 : String → String) (query : String) : String :=
  md5 ((pyStrip query).toLower)

/-- Model of `cache_response(query, query_embedding, response, collection)`
(`utils.py` lines 134-152): `insert_one` of the new cache document,
i.e. appending it to the store. -/
def cache_response (md5 : String → String) (query : String)
    (query_embedding : List ℚ) (response : String) (now : ℚ)
    (store : List CacheEntry) : List CacheEntry :=
  store ++ [{ is_cache := true
              query := query
              query_embedding := some query_embedding
              response := response
              cached_at := now
              query_hash := compute_query_hash md5 query }]

/-- A `Connection` element of a knowledge document; `target` is
`conn.get('target')`, absent keys yielding `none` (Python `None`). -/
structure Connection where
  target : Option String
  deriving DecidableEq

/-- A vector-search hit as projected by `mongodb_vector_search`
(`utils.py` lines 41-51): name, type and description render into the
prompt, `scoreStr` is the `'{score:.2f}'`-formatted relevance score
(floating-point formatting abstracted as an opaque string), and
`connections` is the optional `connections` key. -/
structure VDoc where
  name : String
  type : String
  scoreStr : String
  description : String
  connections : Option (List Connection)
  deriving DecidableEq

/-- A knowledge document as returned by the relational batch fetch
(`utils.py` lines 72-75, `_id` and `embedding` projected away). -/
structure Record where
  id : Option String
  name : String
  type : String
  description : String
  deriving DecidableEq

/-- The `target_ids` list comprehension (`utils.py` lines 63-68): every
`conn.get('target')` of every hit that has a `connections` key. -/
def targetIds : List VDoc → List (Option String)
  | [] => []
  | d :: rest =>
    (match d.connections with
     | none => []
     | some cs => cs.map fun c => c.target) ++ targetIds rest

/-- The batch call `collection.find({"id": {"$in": ids}})` (`utils.py`
lines 72-75): all documents whose `id` is a member of `ids`. -/
def batchFind (coll : List Record) (ids : List (Option String)) :
    List Record :=
  coll.filter fun r => decide (r.id ∈ ids)

/-- Model of `fetch_relational_context(search_results, collection)`
(`utils.py` lines 59-78).  `list(set(target_ids))` is modelled by
`List.dedup`. -/
def fetch_relational_context (search_results : List VDoc)
    (coll : List Record) : List Record :=
  if search_results = [] then []
  else
    let target_ids := targetIds search_results
    if target_ids = [] then []
    else batchFind coll target_ids.dedup

/-- Model of `mongodb_vector_search(query_embedding, collection)`
(`utils.py` lines 37-57): empty embeddings short-circuit to `[]`, and
the `$vectorSearch` aggregation itself is the external `vsBackend`. -/
def mongodb_vector_search (vsBackend : List ℚ → List VDoc)
    (query_embedding : List ℚ) : List VDoc :=
  if query_embedding = [] then [] else vsBackend query_embedding

/-- Role tag of a Streamlit chat message. -/
inductive Role where
  | user
  | assistant
  deriving DecidableEq

/-- One entry of `st.session_state.messages`. -/
structure Turn where
  role : Role
  content : String
  deriving DecidableEq

/-- Rendering of one vector hit in `build_prompt` (`utils.py` line 228):
`- name (type, Score: score): description[:150]...`. -/
def fmtVec (item : VDoc) : String :=
  "- " ++ item.name ++ " (" ++ item.type ++ ", Score: " ++ item.scoreStr
    ++ "): " ++ (item.description.take 150) ++ "..."

/-- Rendering of one relational record in `build_prompt` (`utils.py`
line 234): `- name (type): description[:150]...`. -/
def fmtRel (item : Record) : String :=
  "- " ++ item.name ++ " (" ++ item.type ++ "): "
    ++ (item.description.take 150) ++ "..."

/-- Rendering of one history turn in `build_prompt` (`utils.py` lines
243, 248). -/
def fmtTurn (m : Turn) : String :=
  match m.role with
  | Role.user => "User: " ++ m.content
  | Role.assistant => "Assistant: " ++ m.content

/-- Model of `summarize_conversation_context(history)` (`utils.py`
lines 189-216).  `gen` is the enclosing `call_gemini_rest` with its
default retry budget.  Note the source's formatting quirk for assistant
turns (it interpolates `msg['content']` for both the User and the
Assistant line) is reproduced.  The `except` branch returning `""` is
unreachable in the model because `call_gemini_rest` never raises. -/
def summarize_conversation_context (gen : String → String)
    (history : List Turn) : String :=
  if history.length < 5 then ""
  else
    let history_text := String.intercalate "\n" ((history.take 6).map fun m =>
      match m.role with
      | Role.assistant =>
          "User: " ++ m.content ++ "\nAssistant: " ++ m.content
      | Role.user => "User: " ++ m.content)
    let summary_prompt :=
      "Analyze this travel conversation and provide a 2-3 sentence summary of:\n1. What the traveler is looking for\n2. Their apparent preferences/interests\n3. Any constraints mentioned (budget, time, accessibility)\n\nConversation:\n"
        ++ history_text ++ "\n\nSummary:"
    pyStrip (gen summary_prompt)

/-- Model of `build_prompt(user_query, vector_results,
relational_results, history)` (`utils.py` lines 218-273). -/
def build_prompt (gen : String → String) (user_query : String)
    (vector_results : List VDoc) (relational_results : List Record)
    (history : List Turn) : String :=
  let vec_context_str :=
    let s := String.intercalate "\n" (vector_results.map fmtVec)
    if s = "" then "No search results found." else s
  let rel_context_str :=
    let s := String.intercalate "\n" (relational_results.map fmtRel)
    if s = "" then "No related items found." else s
  let history_str :=
    if 6 < history.length then
      "Context Summary: " ++ summarize_conversation_context gen history
        ++ "\n\nLast 3 exchanges:\n"
        ++ String.intercalate "\n"
            ((history.drop (history.length - 6)).map fmtTurn)
    else
      let s := String.intercalate "\n" (history.map fmtTurn)
      if s = "" then "No previous conversation." else s
  "You are an expert travel assistant specializing in Vietnam. You provide helpful, accurate, and contextual travel advice.\n\n## Conversation Context:\n"
    ++ history_str
    ++ "\n\n## Most Relevant Information (from Knowledge Base):\n"
    ++ vec_context_str
    ++ "\n\n## Related Destinations & Experiences:\n"
    ++ rel_context_str
    ++ "\n\n## Instructions:\n- Use ONLY the provided knowledge base information to answer\n- Be concise but comprehensive\n- If information isn\x27t available, acknowledge and suggest alternatives\n- Consider the traveler\x27s preferences from conversation history\n- Provide practical, actionable recommendations\n\n## Current Question:\n"
    ++ user_query
    ++ "\n\n## Your Response:"

/-- One entry of the CLI chat history (`gemini_mongo_chat.py` line 140). -/
structure GTurn where
  user : String
  assistant : String
  deriving DecidableEq

/-- Model of `build_prompt` in `gemini_mongo_chat.py` (lines 58-78).
Descriptions are cut at 120 characters there, and empty result lists
render empty section bodies (no placeholder text). -/
def gmc_build_prompt (user_query : String) (vector_results : List VDoc)
    (relational_results : List Record) (history : List GTurn) : String :=
  let vec_context_str := String.intercalate "\n" (vector_results.map fun item =>
    "- " ++ item.name ++ " (" ++ item.type ++ ", Score: " ++ item.scoreStr
      ++ "): " ++ (item.description.take 120) ++ "...")
  let rel_context_str := String.intercalate "\n" (relational_results.map fun item =>
    "- " ++ item.name ++ " (" ++ item.type ++ "): "
      ++ (item.description.take 120) ++ "...")
  let history_str := String.intercalate "\n" (history.map fun entry =>
    "Previous User Question: " ++ entry.user
      ++ "\nPrevious Assistant Answer: " ++ entry.assistant)
  "You are an expert travel assistant for Vietnam. Use ONLY the provided context below to answer the user\x27s question. Be concise and helpful. If the context does not contain the answer, say so.\n\n## Conversation History:\n"
    ++ history_str
    ++ "\n\n## Context from Semantic Search (most relevant):\n"
    ++ vec_context_str
    ++ "\n\n## Context from Related Items:\n"
    ++ rel_context_str
    ++ "\n\nBased on all available information, answer the user\x27s current question.\nUser\x27s Current Question: \"" ++ user_query ++ "\"\n"

/-- Model of `get_embedding(text)` (`utils.py` lines 22-34): blank text
short-circuits to `[]`; `embedder` is the external embedding backend,
whose failure mode (the `except` branch) is returning `[]`. -/
def get_embedding (embedder : String → List ℚ) (text : String) : List ℚ :=
  if pyStrip text = "" then [] else embedder text

/-- Ghost marker for the pipeline stages named in the error-handling
design (cache lookup, vector search, relational fetch, generation,
cache write). -/
inductive Step where
  | cacheLookup
  | vectorSearch
  | relationalFetch
  | generation
  | cacheWrite
  deriving DecidableEq

/-- User-visible outcome of one chat turn in `app.py`. -/
inductive Outcome where
  | errorMsg (msg : String)
  | answered (response : String) (fromCache : Bool)
  deriving DecidableEq

/-- Model of the chat-input handler of `app.py` (lines 139-182): embed
the query, halt with `st.error("❌ Could not process query.")` on an
empty embedding, otherwise consult the semantic cache and on a miss run
vector search, relational fetch, prompt assembly, generation (with the
default retry budget 2) and the cache write.  The third component is
the ghost list of pipeline stages the handler reached. -/
def run_chat (embedder : String → List ℚ) (sq : ℚ → ℚ)
    (md5 : String → String) (vsBackend : List ℚ → List VDoc)
    (kb : List Record) (backend : String → ℕ → ApiResult) (now : ℚ)
    (q : String) (history : List Turn) (store : List CacheEntry) :
    Outcome × List CacheEntry × List Step :=
  let query_embedding := get_embedding embedder q
  if query_embedding = [] then
    (Outcome.errorMsg "❌ Could not process query.", store, [])
  else
    match find_cached_similar_response sq query_embedding now store with
    | some entry =>
        (Outcome.answered entry.response true, store, [Step.cacheLookup])
    | none =>
        let vector_matches := mongodb_vector_search vsBackend query_embedding
        let relational_context := fetch_relational_context vector_matches kb
        let prompt_for_llm :=
          build_prompt (fun s => call_gemini_rest backend s 2) q
            vector_matches relational_context history
        let response := call_gemini_rest backend prompt_for_llm 2
        (Outcome.answered response false,
         cache_response md5 q query_embedding response now store,
         [Step.cacheLookup, Step.vectorSearch, Step.relationalFetch,
          Step.generation, Step.cacheWrite])

/-- Boolean test that `n` is an initial segment of `h` (character
lists). -/
def beginsWith : List Char → List Char → Bool
  | [], _ => true
  | _ :: _, [] => false
  | a :: as, b :: bs => a == b && beginsWith as bs

/-- Boolean test that `needle` occurs contiguously inside the character
list. -/
def containsSeq (needle : List Char) : List Char → Bool
  | [] => needle.isEmpty
  | c :: rest => beginsWith needle (c :: rest) || containsSeq needle rest

/-- `needle` occurs contiguously inside `hay` (string level). -/
def StrContains (needle hay : String) : Prop :=
  ∃ a b : String, hay = a ++ needle ++ b

theorem String.mk_data (s : String) : String.mk s.data = s := rfl

theorem data_append_eq (a b : String) :
    (a ++ b).data = a.data ++ b.data := String.data_append a b

theorem beginsWith_iff (n : List Char) :
    ∀ h : List Char, beginsWith n h = true ↔ ∃ t, h = n ++ t := by
  induction n with
  | nil =>
      intro h
      simp [beginsWith]
  | cons a as ih =>
      intro h
      cases h with
      | nil =>
          simp [beginsWith]
      | cons b bs =>
          simp only [beginsWith, Bool.and_eq_true, beq_iff_eq, ih bs]
          constructor
          · rintro ⟨rfl, t, rfl⟩
            exact ⟨t, rfl⟩
          · rintro ⟨t, ht⟩
            injection ht with h1 h2
            exact ⟨h1.symm, t, h2⟩

theorem containsSeq_iff (n : List Char) :
    ∀ h : List Char, containsSeq n h = true ↔ ∃ a b, h = a ++ n ++ b := by
  intro h
  induction h with
  | nil =>
      simp only [containsSeq, List.isEmpty_iff]
      constructor
      · rintro rfl
        exact ⟨[], [], rfl⟩
      · rintro ⟨a, b, hab⟩
        rcases List.append_eq_nil.mp ((List.append_eq_nil).mp hab.symm).1 with ⟨_, h2⟩
        exact h2
  | cons c rest ih =>
      simp only [containsSeq, Bool.or_eq_true, beginsWith_iff, ih]
      constructor
      · rintro (⟨t, ht⟩ | ⟨a, b, hab⟩)
        · exact ⟨[], t, by simpa using ht⟩
        · exact ⟨c :: a, b, by simp [hab]⟩
      · rintro ⟨a, b, hab⟩
        cases a with
        | nil =>
            exact Or.inl ⟨b, by simpa using hab⟩
        | cons a0 as =>
            injection hab with h1 h2
            exact Or.inr ⟨as, b, h2⟩

theorem strContains_iff (n h : String) :
    StrContains n h ↔ containsSeq n.data h.data = true := by
  rw [containsSeq_iff]
  constructor
  · rintro ⟨a, b, rfl⟩
    exact ⟨a.data, b.data, by simp [data_append_eq]⟩
  · rintro ⟨a, b, hab⟩
    refine ⟨String.mk a, String.mk b, ?_⟩
    cases h with
    | mk d =>
        cases n with
        | mk nd =>
            exact congrArg String.mk hab

theorem strContains_of_parts (a n b : String) : StrContains n (a ++ n ++ b) :=
  ⟨a, b, rfl⟩

theorem strContains_congr {n hay hay' : String} (h : hay = hay') :
    StrContains n hay' → StrContains n hay := by
  rintro ⟨a, b, rfl⟩
  exact ⟨a, b, h⟩

theorem cg_go_cons_mid (backend : ℕ → ApiResult) (mr a : ℕ)
    (rest : List ℕ) (hb : backend a = ApiResult.timeout)
    (hlt : a < mr - 1) :
    cg_go backend mr (a :: rest) = cg_go backend mr rest := by
  simp [cg_go, hb, hlt]

theorem cg_go_cons_last (backend : ℕ → ApiResult) (mr a : ℕ)
    (rest : List ℕ) (hb : backend a = ApiResult.timeout)
    (hge : ¬ a < mr - 1) :
    cg_go backend mr (a :: rest) = timeoutFallback := by
  simp [cg_go, hb, hge]

theorem cg_calls_cons_mid (backend : ℕ → ApiResult) (mr a : ℕ)
    (rest : List ℕ) (hb : backend a = ApiResult.timeout)
    (hlt : a < mr - 1) :
    cg_calls backend mr (a :: rest) = 1 + cg_calls backend mr rest := by
  simp [cg_calls, hb, hlt]

theorem cg_calls_cons_last (backend : ℕ → ApiResult) (mr a : ℕ)
    (rest : List ℕ) (hb : backend a = ApiResult.timeout)
    (hge : ¬ a < mr - 1) :
    cg_calls backend mr (a :: rest) = 1 := by
  simp [cg_calls, hb, hge]

theorem cg_go_timeout_all (backend : ℕ → ApiResult) (mr : ℕ)
    (h : ∀ n, backend n = ApiResult.timeout) :
    ∀ k s, mr - s = k + 1 →
      cg_go backend mr (List.range' s (k + 1)) = timeoutFallback := by
  intro k
  induction k with
  | zero =>
      intro s hs
      have h1 : List.range' s 1 = [s] := rfl
      rw [h1]
      exact cg_go_cons_last backend mr s [] (h s) (by omega)
  | succ k ih =>
      intro s hs
      have h1 : List.range' s (k + 1 + 1) = s :: List.range' (s + 1) (k + 1) := rfl
      rw [h1, cg_go_cons_mid backend mr s _ (h s) (by omega)]
      exact ih (s + 1) (by omega)

theorem cg_calls_timeout_all (backend : ℕ → ApiResult) (mr : ℕ)
    (h : ∀ n, backend n = ApiResult.timeout) :
    ∀ k s, mr - s = k + 1 →
      cg_calls backend mr (List.range' s (k + 1)) = k + 1 := by
  intro k
  induction k with
  | zero =>
      intro s hs
      have h1 : List.range' s 1 = [s] := rfl
      rw [h1]
      exact cg_calls_cons_last backend mr s [] (h s) (by omega)
  | succ k ih =>
      intro s hs
      have h1 : List.range' s (k + 1 + 1) = s :: List.range' (s + 1) (k + 1) := rfl
      rw [h1, cg_calls_cons_mid backend mr s _ (h s) (by omega),
        ih (s + 1) (by omega)]
      omega

theorem cg_go_failure_all (backend : ℕ → ApiResult) (mr : ℕ)
    (h : ∀ n, backend n = ApiResult.failure) :
    ∀ l, cg_go backend mr l = errorFallback := by
  intro l
  induction l with
  | nil => rfl
  | cons a rest ih =>
      have h1 : cg_go backend mr (a :: rest) = cg_go backend mr rest := by
        simp [cg_go, h a]
      rw [h1, ih]

theorem di_go_timeout_all (backend : ℕ → ApiResult)
    (h : ∀ n, backend n = ApiResult.timeout) :
    ∀ l, di_go backend l = imageFallback ∧ di_calls backend l = l.length := by
  intro l
  induction l with
  | nil => exact ⟨rfl, rfl⟩
  | cons a rest ih =>
      have h1 : di_go backend (a :: rest) = di_go backend rest := by
        simp [di_go, h a]
      have h2 : di_calls backend (a :: rest) = 1 + di_calls backend rest := by
        simp [di_calls, h a]
      refine ⟨by rw [h1, ih.1], ?_⟩
      rw [h2, ih.2, List.length_cons]
      omega

theorem call_gemini_rest_timeout_fb (backend : String → ℕ → ApiResult)
    (prompt : String) (mr : ℕ) (hmr : 1 ≤ mr)
    (hT : ∀ n, backend prompt n = ApiResult.timeout) :
    call_gemini_rest backend prompt mr = timeoutFallback := by
  rw [call_gemini_rest, List.range_eq_range' mr]
  have h1 := cg_go_timeout_all (backend prompt) mr hT (mr - 1) 0 (by omega)
  rw [show (mr - 1) + 1 = mr from by omega] at h1
  exact h1

theorem call_gemini_rest_failure_fb (backend : String → ℕ → ApiResult)
    (prompt : String) (mr : ℕ)
    (hF : ∀ n, backend prompt n = ApiResult.failure) :
    call_gemini_rest backend prompt mr = errorFallback :=
  cg_go_failure_all (backend prompt) mr hF _

/-- Claim C2: with a backend that times out on every attempt and any
retry budget of at least one, `call_gemini_rest` makes exactly
`max_retries` HTTP attempts and returns its fixed timeout fallback
string, and `describe_image` makes exactly its `max_retries` attempts
and returns its fixed fallback string.  Neither lets an error escape:
both are total functions into `String` (all exception paths of the
source are modelled as values). -/
theorem call_gemini_rest_timeout_retries
    (backend : String → ℕ → ApiResult) (ibackend : ℕ → ApiResult)
    (prompt : String) (mr mri : ℕ) (hmr : 1 ≤ mr) (hmri : 1 ≤ mri)
    (hT : ∀ n, backend prompt n = ApiResult.timeout)
    (hI : ∀ n, ibackend n = ApiResult.timeout) :
    call_gemini_rest backend prompt mr = timeoutFallback ∧
    call_gemini_rest_calls backend prompt mr = mr ∧
    describe_image ibackend mri = imageFallback ∧
    describe_image_calls ibackend mri = mri := by
  refine ⟨call_gemini_rest_timeout_fb backend prompt mr hmr hT, ?_, ?_, ?_⟩
  · rw [call_gemini_rest_calls, List.range_eq_range' mr]
    have h1 := cg_calls_timeout_all (backend prompt) mr hT (mr - 1) 0 (by omega)
    rw [show (mr - 1) + 1 = mr from by omega] at h1
    exact h1
  · exact (di_go_timeout_all ibackend hI _).1
  · rw [describe_image_calls, (di_go_timeout_all ibackend hI _).2,
      List.length_range]

/-- Witness for C2 at the source's default budgets (2 for text, 3 for
vision) and an always-timing-out backend. -/
theorem call_gemini_rest_timeout_retries_witness :
    call_gemini_rest (fun _ _ => ApiResult.timeout) "p" 2 = timeoutFallback ∧
    call_gemini_rest_calls (fun _ _ => ApiResult.timeout) "p" 2 = 2 ∧
    describe_image (fun _ => ApiResult.timeout) 3 = imageFallback ∧
    describe_image_calls (fun _ => ApiResult.timeout) 3 = 3 :=
  call_gemini_rest_timeout_retries (fun _ _ => ApiResult.timeout)
    (fun _ => ApiResult.timeout) "p" 2 3 (by decide) (by decide)
    (fun _ => rfl) (fun _ => rfl)

theorem dotProduct_comm : ∀ v1 v2 : List ℚ, dotProduct v1 v2 = dotProduct v2 v1 := by
  intro v1
  induction v1 with
  | nil =>
      intro v2
      cases v2 <;> rfl
  | cons a as ih =>
      intro v2
      cases v2 with
      | nil => rfl
      | cons b bs =>
          have h1 : dotProduct (a :: as) (b :: bs) = a * b + dotProduct as bs := by
            simp [dotProduct, List.zip_cons_cons]
          have h2 : dotProduct (b :: bs) (a :: as) = b * a + dotProduct bs as := by
            simp [dotProduct, List.zip_cons_cons]
          rw [h1, h2, ih bs, mul_comm a b]

/-- Claim C9: `cosine_similarity` is symmetric in its two vector
arguments, for every abstract square-root function. -/
theorem cosine_similarity_symm (sq : ℚ → ℚ) (v1 v2 : List ℚ) :
    cosine_similarity sq v1 v2 = cosine_similarity sq v2 v1 := by
  have hA : (v1 = [] ∨ v2 = [] ∨ v1.length ≠ v2.length) ↔
      (v2 = [] ∨ v1 = [] ∨ v2.length ≠ v1.length) := by
    constructor <;>
      · rintro (h | h | h)
        exacts [Or.inr (Or.inl h), Or.inl h,
          Or.inr (Or.inr fun e => h e.symm)]
  have hB : (sq (sumSquares v1) = 0 ∨ sq (sumSquares v2) = 0) ↔
      (sq (sumSquares v2) = 0 ∨ sq (sumSquares v1) = 0) := Or.comm
  simp only [cosine_similarity]
  rw [dotProduct_comm v1 v2, mul_comm (sq (sumSquares v1)) (sq (sumSquares v2))]
  exact if_congr hA rfl (if_congr hB rfl rfl)

/-- Claim C6: whenever either vector is empty, the two lengths differ,
or either vector has zero magnitude (sum of squares zero, hence
magnitude `sq 0 = 0`), `cosine_similarity` returns exactly `0`.  The
model is a total function, so no exception can be raised. -/
theorem cosine_similarity_degenerate_zero (sq : ℚ → ℚ) (hsq : sq 0 = 0)
    (v1 v2 : List ℚ)
    (h : v1 = [] ∨ v2 = [] ∨ v1.length ≠ v2.length ∨
      sumSquares v1 = 0 ∨ sumSquares v2 = 0) :
    cosine_similarity sq v1 v2 = 0 := by
  simp only [cosine_similarity]
  rcases h with h | h | h | h | h
  · rw [if_pos (Or.inl h)]
  · rw [if_pos (Or.inr (Or.inl h))]
  · rw [if_pos (Or.inr (Or.inr h))]
  · by_cases hA : v1 = [] ∨ v2 = [] ∨ v1.length ≠ v2.length
    · rw [if_pos hA]
    · rw [if_neg hA, if_pos (Or.inl (by rw [h, hsq]))]
  · by_cases hA : v1 = [] ∨ v2 = [] ∨ v1.length ≠ v2.length
    · rw [if_pos hA]
    · rw [if_neg hA, if_pos (Or.inr (by rw [h, hsq]))]

/-- Witness for C6: an empty first vector yields similarity `0`. -/
theorem cosine_similarity_degenerate_zero_witness :
    id (0 : ℚ) = 0 ∧ cosine_similarity id [] [1] = 0 :=
  ⟨rfl, cosine_similarity_degenerate_zero id rfl [] [1] (Or.inl rfl)⟩

theorem scan_entries_cons (sq : ℚ → ℚ) (q : List ℚ) (e : CacheEntry)
    (rest : List CacheEntry) (st : Option CacheEntry × ℚ) :
    scan_entries sq q (e :: rest) st =
      scan_entries sq q rest (scan_step sq q st e) := rfl

theorem scan_step_snd_le (sq : ℚ → ℚ) (q : List ℚ)
    (st : Option CacheEntry × ℚ) (e : CacheEntry) :
    st.2 ≤ (scan_step sq q st e).2 := by
  cases he : e.query_embedding with
  | none => simp [scan_step, he]
  | some v =>
      simp only [scan_step, he]
      split
      · rename_i h
        exact le_of_lt h
      · exact le_refl _

theorem scan_step_ub (sq : ℚ → ℚ) (q : List ℚ)
    (st : Option CacheEntry × ℚ) (e : CacheEntry) (v : List ℚ)
    (hv : e.query_embedding = some v) :
    cosine_similarity sq q v ≤ (scan_step sq q st e).2 := by
  simp only [scan_step, hv]
  split
  · exact le_refl _
  · rename_i h
    exact le_of_not_lt h

theorem scan_step_cases (sq : ℚ → ℚ) (q : List ℚ)
    (st : Option CacheEntry × ℚ) (e : CacheEntry) :
    scan_step sq q st e = st ∨
      ∃ v, e.query_embedding = some v ∧
        scan_step sq q st e = (some e, cosine_similarity sq q v) := by
  cases he : e.query_embedding with
  | none =>
      left
      simp [scan_step, he]
  | some v =>
      simp only [scan_step, he]
      split
      · exact Or.inr ⟨v, rfl, rfl⟩
      · exact Or.inl rfl

theorem scan_entries_snd_le (sq : ℚ → ℚ) (q : List ℚ) :
    ∀ (l : List CacheEntry) (st : Option CacheEntry × ℚ),
      st.2 ≤ (scan_entries sq q l st).2 := by
  intro l
  induction l with
  | nil => exact fun st => le_refl _
  | cons e rest ih =>
      intro st
      exact le_trans (scan_step_snd_le sq q st e) (ih (scan_step sq q st e))

theorem scan_entries_ub (sq : ℚ → ℚ) (q : List ℚ) :
    ∀ (l : List CacheEntry) (st : Option CacheEntry × ℚ) (e : CacheEntry),
      e ∈ l → ∀ v, e.query_embedding = some v →
      cosine_similarity sq q v ≤ (scan_entries sq q l st).2 := by
  intro l
  induction l with
  | nil =>
      intro st e he
      exact absurd he (List.not_mem_nil e)
  | cons e0 rest ih =>
      intro st e he v hv
      rcases List.mem_cons.mp he with rfl | hmem
      · rw [scan_entries_cons]
        exact le_trans (scan_step_ub sq q st e v hv)
            (scan_entries_snd_le sq q rest (scan_step sq q st e))
      · exact ih (scan_step sq q st e0) e hmem v hv

theorem scan_entries_result (sq : ℚ → ℚ) (q : List ℚ) :
    ∀ (l : List CacheEntry) (st : Option CacheEntry × ℚ),
      scan_entries sq q l st = st ∨
        ∃ e, e ∈ l ∧ ∃ v, e.query_embedding = some v ∧
          scan_entries sq q l st = (some e, cosine_similarity sq q v) := by
  intro l
  induction l with
  | nil => exact fun st => Or.inl rfl
  | cons e0 rest ih =>
      intro st
      rcases ih (scan_step sq q st e0) with hrec | ⟨e, hmem, v, hv, heq⟩
      · rcases scan_step_cases sq q st e0 with hstep | ⟨v, hv, hstep⟩
        · left
          rw [scan_entries_cons, hrec, hstep]
        · right
          refine ⟨e0, List.mem_cons_self e0 rest, v, hv, ?_⟩
          rw [scan_entries_cons, hrec, hstep]
      · right
        exact ⟨e, List.mem_cons_of_mem e0 hmem, v, hv, heq⟩

theorem similarity_threshold_pos : (0 : ℚ) < SIMILARITY_THRESHOLD := by
  norm_num [SIMILARITY_THRESHOLD]

/-- Claim C1: `find_cached_similar_response` returns an entry exactly
when some candidate (the filtered, TTL-windowed, 50-limited scan set)
with a `query_embedding` reaches the 0.92 threshold; the returned entry
is a candidate whose similarity is greatest among all candidates
carrying an embedding (so never a lower-scoring one); it returns `none`
when it returned nothing above threshold, when the candidate set is
empty, and in particular when every stored entry is outside the TTL
window. -/
theorem find_cached_similar_response_spec (sq : ℚ → ℚ) (q : List ℚ)
    (now : ℚ) (store : List CacheEntry) :
    (∀ r, find_cached_similar_response sq q now store = some r →
        r ∈ eligible_cache_entries now store ∧
        ∃ v, r.query_embedding = some v ∧
          SIMILARITY_THRESHOLD ≤ cosine_similarity sq q v ∧
          ∀ e ∈ eligible_cache_entries now store, ∀ w,
            e.query_embedding = some w →
            cosine_similarity sq q w ≤ cosine_similarity sq q v) ∧
    (find_cached_similar_response sq q now store = none →
        ∀ e ∈ eligible_cache_entries now store, ∀ w,
          e.query_embedding = some w →
          cosine_similarity sq q w < SIMILARITY_THRESHOLD) ∧
    (eligible_cache_entries now store = [] →
        find_cached_similar_response sq q now store = none) ∧
    ((∀ e ∈ store, ¬ (now - CACHE_TTL_SECONDS ≤ e.cached_at)) →
        find_cached_similar_response sq q now store = none) := by
  have key3 : eligible_cache_entries now store = [] →
      find_cached_similar_response sq q now store = none := by
    intro hL
    simp only [find_cached_similar_response, hL]
    rw [if_neg]
    rintro ⟨h1, -⟩
    have h0 : (scan_entries sq q [] (none, 0)).2 = 0 := rfl
    rw [h0] at h1
    exact absurd (lt_of_lt_of_le similarity_threshold_pos h1) (lt_irrefl 0)
  refine ⟨?_, ?_, key3, ?_⟩
  · intro r hr
    by_cases hc : SIMILARITY_THRESHOLD ≤
        (scan_entries sq q (eligible_cache_entries now store) (none, 0)).2 ∧
        (scan_entries sq q (eligible_cache_entries now store) (none, 0)).1.isSome = true
    · have hfind : find_cached_similar_response sq q now store =
          (scan_entries sq q (eligible_cache_entries now store) (none, 0)).1 := by
        simp only [find_cached_similar_response]
        rw [if_pos hc]
      rw [hfind] at hr
      rcases scan_entries_result sq q (eligible_cache_entries now store)
          (none, 0) with hres | ⟨e, hmem, v, hv, heq⟩
      · rw [hres] at hr
        cases hr
      · rw [heq] at hr
        have her : e = r := by
          injection hr
        subst her
        refine ⟨hmem, v, hv, ?_, ?_⟩
        · have := hc.1
          rw [heq] at this
          exact this
        · intro e' hmem' w hw
          have h1 := scan_entries_ub sq q (eligible_cache_entries now store)
            (none, 0) e' hmem' w hw
          rw [heq] at h1
          exact h1
    · exfalso
      have hfind : find_cached_similar_response sq q now store = none := by
        simp only [find_cached_similar_response]
        rw [if_neg hc]
      rw [hfind] at hr
      cases hr
  · intro hn e hmem w hw
    have hcond : ¬ (SIMILARITY_THRESHOLD ≤
        (scan_entries sq q (eligible_cache_entries now store) (none, 0)).2 ∧
        (scan_entries sq q (eligible_cache_entries now store) (none, 0)).1.isSome = true) := by
      intro hc
      have hfind : find_cached_similar_response sq q now store =
          (scan_entries sq q (eligible_cache_entries now store) (none, 0)).1 := by
        simp only [find_cached_similar_response]
        rw [if_pos hc]
      rw [hfind] at hn
      rw [hn] at hc
      simp at hc
    have hub := scan_entries_ub sq q (eligible_cache_entries now store)
      (none, 0) e hmem w hw
    rcases not_and_or.mp hcond with hA | hB
    · exact lt_of_le_of_lt hub (not_le.mp hA)
    · rcases scan_entries_result sq q (eligible_cache_entries now store)
          (none, 0) with hres | ⟨e', _, v', _, heq⟩
      · rw [hres] at hub
        exact lt_of_le_of_lt hub similarity_threshold_pos
      · rw [heq] at hB
        simp at hB
  · intro hstore
    apply key3
    have hfil : (store.filter fun e =>
        e.is_cache && decide (now - CACHE_TTL_SECONDS ≤ e.cached_at)) = [] := by
      rw [List.filter_eq_nil_iff]
      intro e he
      simp only [Bool.and_eq_true, decide_eq_true_eq, not_and]
      intro _
      exact hstore e he
    rw [eligible_cache_entries, hfil]
    rfl

/-- Sample cache entry used by concrete witnesses. -/
def sampleEntry : CacheEntry :=
  { is_cache := true
    query := "q1"
    query_embedding := some [1]
    response := "resp"
    cached_at := 3600
    query_hash := "h" }

theorem sample_cosine : cosine_similarity id [1] [1] = 1 := by
  norm_num [cosine_similarity, sumSquares, dotProduct]

theorem sample_lookup :
    find_cached_similar_response id [1] 3600 [sampleEntry] = some sampleEntry := by
  have helig : eligible_cache_entries 3600 [sampleEntry] = [sampleEntry] := by
    norm_num [eligible_cache_entries, sampleEntry, CACHE_TTL_SECONDS]
  have hstep : scan_step id [1] (none, 0) sampleEntry = (some sampleEntry, 1) := by
    simp only [scan_step, sampleEntry, sample_cosine]
    norm_num
  have hscan : scan_entries id [1] [sampleEntry] (none, 0) = (some sampleEntry, 1) := by
    rw [scan_entries_cons, hstep]
    rfl
  simp only [find_cached_similar_response, helig, hscan]
  norm_num [SIMILARITY_THRESHOLD]

/-- Witness for C1: a single in-window entry whose embedding equals the
query embedding is found with similarity 1 ≥ 0.92. -/
theorem find_cached_similar_response_spec_witness :
    sampleEntry ∈ eligible_cache_entries 3600 [sampleEntry] ∧
    ∃ v, sampleEntry.query_embedding = some v ∧
      SIMILARITY_THRESHOLD ≤ cosine_similarity id [1] v ∧
      ∀ e ∈ eligible_cache_entries 3600 [sampleEntry], ∀ w,
        e.query_embedding = some w →
        cosine_similarity id [1] w ≤ cosine_similarity id [1] v :=
  (find_cached_similar_response_spec id [1] 3600 [sampleEntry]).1
    sampleEntry sample_lookup

/-- Claim C10: any entry returned by `find_cached_similar_response` has
a `query_embedding` field, and its cosine similarity to the query
embedding is strictly positive; entries lacking the field are never
returned. -/
theorem find_cached_requires_embedding (sq : ℚ → ℚ) (q : List ℚ)
    (now : ℚ) (store : List CacheEntry) :
    ∀ r, find_cached_similar_response sq q now store = some r →
      ∃ v, r.query_embedding = some v ∧ 0 < cosine_similarity sq q v := by
  intro r hr
  by_cases hc : SIMILARITY_THRESHOLD ≤
      (scan_entries sq q (eligible_cache_entries now store) (none, 0)).2 ∧
      (scan_entries sq q (eligible_cache_entries now store) (none, 0)).1.isSome = true
  · have hfind : find_cached_similar_response sq q now store =
        (scan_entries sq q (eligible_cache_entries now store) (none, 0)).1 := by
      simp only [find_cached_similar_response]
      rw [if_pos hc]
    rw [hfind] at hr
    rcases scan_entries_result sq q (eligible_cache_entries now store)
        (none, 0) with hres | ⟨e, _, v, hv, heq⟩
    · rw [hres] at hr
      cases hr
    · rw [heq] at hr
      have her : e = r := by
        injection hr
      subst her
      refine ⟨v, hv, ?_⟩
      have := hc.1
      rw [heq] at this
      exact lt_of_lt_of_le similarity_threshold_pos this
  · exfalso
    have hfind : find_cached_similar_response sq q now store = none := by
      simp only [find_cached_similar_response]
      rw [if_neg hc]
    rw [hfind] at hr
    cases hr

/-- Witness for C10 at a concrete store. -/
theorem find_cached_requires_embedding_witness :
    ∃ v, sampleEntry.query_embedding = some v ∧
      0 < cosine_similarity id [1] v :=
  find_cached_requires_embedding id [1] 3600 [sampleEntry] sampleEntry
    sample_lookup

theorem targetIds_mem (sr : List VDoc) (t : Option String) :
    t ∈ targetIds sr ↔ ∃ d, d ∈ sr ∧ ∃ cs, d.connections = some cs ∧
      ∃ c, c ∈ cs ∧ c.target = t := by
  induction sr with
  | nil => simp [targetIds]
  | cons d rest ih =>
      simp only [targetIds, List.mem_append, ih, List.mem_cons]
      constructor
      · rintro (h | ⟨e, he, cs, hcs, c, hc, ht⟩)
        · cases hcon : d.connections with
          | none =>
              simp only [hcon] at h
              cases h
          | some cs =>
              simp only [hcon] at h
              rcases List.mem_map.mp h with ⟨c, hc, ht⟩
              exact ⟨d, Or.inl rfl, cs, hcon, c, hc, ht⟩
        · exact ⟨e, Or.inr he, cs, hcs, c, hc, ht⟩
      · rintro ⟨e, (rfl | he), cs, hcs, c, hc, ht⟩
        · left
          simp only [hcs]
          exact List.mem_map.mpr ⟨c, hc, ht⟩
        · right
          exact ⟨e, he, cs, hcs, c, hc, ht⟩

theorem targetIds_nil_of_no_connections (sr : List VDoc)
    (h : ∀ d ∈ sr, d.connections = none ∨ d.connections = some []) :
    targetIds sr = [] := by
  induction sr with
  | nil => rfl
  | cons d rest ih =>
      have hd := h d (List.mem_cons_self d rest)
      have hr := ih fun e he => h e (List.mem_cons_of_mem d he)
      rcases hd with hd | hd <;> simp [targetIds, hd, hr]

/-- Claim C8: the relational fetch issues one batch query whose
identifier set is the de-duplicated set of every `Connection.target`
referenced by any hit (membership characterized below, and `batchFind`
depends only on set membership of the identifier list), and it returns
an empty sequence when there are no hits or when no hit carries any
connection. -/
theorem fetch_relational_context_spec (sr : List VDoc) (kb : List Record) :
    (∀ t, t ∈ (targetIds sr).dedup ↔ ∃ d, d ∈ sr ∧ ∃ cs,
        d.connections = some cs ∧ ∃ c, c ∈ cs ∧ c.target = t) ∧
    (sr = [] → fetch_relational_context sr kb = []) ∧
    ((∀ d ∈ sr, d.connections = none ∨ d.connections = some []) →
        fetch_relational_context sr kb = []) ∧
    (sr ≠ [] → targetIds sr ≠ [] →
        fetch_relational_context sr kb = batchFind kb (targetIds sr).dedup) ∧
    (∀ ids ids' : List (Option String), (∀ t, t ∈ ids ↔ t ∈ ids') →
        batchFind kb ids = batchFind kb ids') := by
  refine ⟨?_, ?_, ?_, ?_, ?_⟩
  · intro t
    rw [List.mem_dedup]
    exact targetIds_mem sr t
  · rintro rfl
    rfl
  · intro h
    have ht := targetIds_nil_of_no_connections sr h
    by_cases hsr : sr = []
    · simp [fetch_relational_context, hsr]
    · simp [fetch_relational_context, hsr, ht]
  · intro h1 h2
    simp [fetch_relational_context, h1, h2]
  · intro ids ids' hiff
    unfold batchFind
    apply List.filter_congr
    intro r _
    exact decide_eq_decide.mpr (hiff r.id)

/-- Witness for C8: no hits yield an empty relational context. -/
theorem fetch_relational_context_spec_witness :
    fetch_relational_context [] [] = [] :=
  (fetch_relational_context_spec [] []).2.1 rfl

/-- Claim C3: if embedding the (non-blank) query yields the empty
vector, the handler halts with the explicit "Could not process query."
outcome, leaves the store untouched, and reaches no pipeline stage (no
cache lookup, vector search, relational fetch, generation, or cache
write); conversely this is the only error outcome the handler can
produce. -/
theorem run_chat_embedding_failure (embedder : String → List ℚ)
    (sq : ℚ → ℚ) (md5 : String → String) (vsBackend : List ℚ → List VDoc)
    (kb : List Record) (backend : String → ℕ → ApiResult) (now : ℚ)
    (q : String) (history : List Turn) (store : List CacheEntry) :
    (get_embedding embedder q = [] →
      run_chat embedder sq md5 vsBackend kb backend now q history store =
        (Outcome.errorMsg "❌ Could not process query.", store, [])) ∧
    (∀ m, (run_chat embedder sq md5 vsBackend kb backend now q history
        store).1 = Outcome.errorMsg m →
      m = "❌ Could not process query." ∧ get_embedding embedder q = []) := by
  constructor
  · intro h
    simp [run_chat, h]
  · intro m hm
    by_cases h : get_embedding embedder q = []
    · refine ⟨?_, h⟩
      simp only [run_chat, h, if_pos] at hm
      simp only [Outcome.errorMsg.injEq] at hm
      exact hm.symm
    · exfalso
      simp only [run_chat] at hm
      rw [if_neg h] at hm
      cases hf : find_cached_similar_response sq (get_embedding embedder q)
          now store with
      | some e =>
          rw [hf] at hm
          simp at hm
      | none =>
          rw [hf] at hm
          simp at hm

/-- Witness for C3 at a concrete failing embedder. -/
theorem run_chat_embedding_failure_witness :
    run_chat (fun _ => []) id (fun _ => "") (fun _ => []) []
        (fun _ _ => ApiResult.timeout) 0 "hi" [] [] =
      (Outcome.errorMsg "❌ Could not process query.", [], []) :=
  (run_chat_embedding_failure (fun _ => []) id (fun _ => "") (fun _ => [])
      [] (fun _ _ => ApiResult.timeout) 0 "hi" [] []).1 (by decide)

theorem find_cached_nil (sq : ℚ → ℚ) (q : List ℚ) (now : ℚ) :
    find_cached_similar_response sq q now [] = none := by
  have hL : eligible_cache_entries now [] = [] := rfl
  simp only [find_cached_similar_response, hL]
  rw [if_neg]
  rintro ⟨-, h2⟩
  rw [show scan_entries sq q []
      ((none : Option CacheEntry), (0 : ℚ)) = (none, 0) from rfl] at h2
  simp at h2

/-- Claim C5: on a cache miss, when every generation attempt times out
(retry budget exhausted) or every attempt fails to parse, the fixed
apologetic fallback string becomes the answer, is written to the cache
as a normal entry (its `response` field is the fallback), and is
returned exactly like a normal answer. -/
theorem run_chat_miss_caches_fallback (embedder : String → List ℚ)
    (sq : ℚ → ℚ) (md5 : String → String) (vsBackend : List ℚ → List VDoc)
    (kb : List Record) (backend : String → ℕ → ApiResult) (now : ℚ)
    (q : String) (history : List Turn) (store : List CacheEntry)
    (hq : ¬ pyStrip q = "") (hne : ¬ embedder q = [])
    (hmiss : find_cached_similar_response sq (embedder q) now store = none) :
    ((∀ p n, backend p n = ApiResult.timeout) →
      run_chat embedder sq md5 vsBackend kb backend now q history store =
        (Outcome.answered timeoutFallback false,
         store ++ [{ is_cache := true, query := q,
                     query_embedding := some (embedder q),
                     response := timeoutFallback, cached_at := now,
                     query_hash := compute_query_hash md5 q }],
         [Step.cacheLookup, Step.vectorSearch, Step.relationalFetch,
          Step.generation, Step.cacheWrite])) ∧
    ((∀ p n, backend p n = ApiResult.failure) →
      run_chat embedder sq md5 vsBackend kb backend now q history store =
        (Outcome.answered errorFallback false,
         store ++ [{ is_cache := true, query := q,
                     query_embedding := some (embedder q),
                     response := errorFallback, cached_at := now,
                     query_hash := compute_query_hash md5 q }],
         [Step.cacheLookup, Step.vectorSearch, Step.relationalFetch,
          Step.generation, Step.cacheWrite])) := by
  have hemb : get_embedding embedder q = embedder q := by
    rw [get_embedding, if_neg hq]
  constructor
  · intro hTO
    have hresp : ∀ p, call_gemini_rest backend p 2 = timeoutFallback :=
      fun p => call_gemini_rest_timeout_fb backend p 2 (by omega) (hTO p)
    simp only [run_chat, hemb, hmiss]
    rw [if_neg hne, hresp]
    rfl
  · intro hF
    have hresp : ∀ p, call_gemini_rest backend p 2 = errorFallback :=
      fun p => call_gemini_rest_failure_fb backend p 2 (hF p)
    simp only [run_chat, hemb, hmiss]
    rw [if_neg hne, hresp]
    rfl

/-- Witness for C5: empty store (hence a miss), always-timing-out
backend; the timeout fallback is answered and cached. -/
theorem run_chat_miss_caches_fallback_witness :
    run_chat (fun _ => [1]) id (fun _ => "h") (fun _ => []) []
        (fun _ _ => ApiResult.timeout) 0 "hi" [] [] =
      (Outcome.answered timeoutFallback false,
       [] ++ [{ is_cache := true, query := "hi",
                query_embedding := some [1],
                response := timeoutFallback, cached_at := 0,
                query_hash := "h" }],
       [Step.cacheLookup, Step.vectorSearch, Step.relationalFetch,
        Step.generation, Step.cacheWrite]) :=
  (run_chat_miss_caches_fallback (fun _ => [1]) id (fun _ => "h")
      (fun _ => []) [] (fun _ _ => ApiResult.timeout) 0 "hi" [] []
      (by decide) (by decide) (find_cached_nil id [1] 0)).1
    (fun _ _ => rfl)

theorem strContains_refl (n : String) : StrContains n n :=
  ⟨"", "", by simp⟩

theorem strContains_append_left (n s t : String) (h : StrContains n t) :
    StrContains n (s ++ t) := by
  rcases h with ⟨a, b, rfl⟩
  exact ⟨s ++ a, b, by simp [String.append_assoc]⟩

theorem strContains_append_right (n s t : String) (h : StrContains n s) :
    StrContains n (s ++ t) := by
  rcases h with ⟨a, b, rfl⟩
  exact ⟨a, b ++ t, by simp [String.append_assoc]⟩

/-- Claim C7 (amended): for empty vector results and empty relational
results, `build_prompt` of `utils.py` renders the literal placeholders
`"No search results found."` and `"No related items found."` in the two
context sections — the sections are never empty there.  (The claim's
exact `"none found"` wording and the CLI assembler are handled by the
accompanying counterexample.) -/
theorem build_prompt_empty_sections_placeholders (gen : String → String)
    (user_query : String) (history : List Turn) :
    StrContains "No search results found."
      (build_prompt gen user_query [] [] history) ∧
    StrContains "No related items found."
      (build_prompt gen user_query [] [] history) := by
  have h : build_prompt gen user_query [] [] history =
      "You are an expert travel assistant specializing in Vietnam. You provide helpful, accurate, and contextual travel advice.\n\n## Conversation Context:\n"
        ++ (if 6 < history.length then
              "Context Summary: " ++ summarize_conversation_context gen history
                ++ "\n\nLast 3 exchanges:\n"
                ++ String.intercalate "\n"
                    ((history.drop (history.length - 6)).map fmtTurn)
            else
              let s := String.intercalate "\n" (history.map fmtTurn)
              if s = "" then "No previous conversation." else s)
        ++ "\n\n## Most Relevant Information (from Knowledge Base):\n"
        ++ "No search results found."
        ++ "\n\n## Related Destinations & Experiences:\n"
        ++ "No related items found."
        ++ "\n\n## Instructions:\n- Use ONLY the provided knowledge base information to answer\n- Be concise but comprehensive\n- If information isn\x27t available, acknowledge and suggest alternatives\n- Consider the traveler\x27s preferences from conversation history\n- Provide practical, actionable recommendations\n\n## Current Question:\n"
        ++ user_query
        ++ "\n\n## Your Response:" := rfl
  rw [h]
  constructor
  · apply strContains_append_right
    apply strContains_append_right
    apply strContains_append_right
    apply strContains_append_right
    apply strContains_append_right
    exact strContains_append_left _ _ _ (strContains_refl _)
  · apply strContains_append_right
    apply strContains_append_right
    apply strContains_append_right
    exact strContains_append_left _ _ _ (strContains_refl _)

set_option maxRecDepth 40000 in
/-- Counterexample for C7: the assembled prompt for empty results does
not contain the literal text `"none found"` anywhere (the placeholders
read differently), and the CLI assembler of `gemini_mongo_chat.py`
renders the two context sections entirely empty for empty inputs. -/
theorem build_prompt_none_found_counterexample :
    ¬ StrContains "none found" (build_prompt (fun _ => "") "q" [] [] []) ∧
    gmc_build_prompt "q" [] [] [] =
      "You are an expert travel assistant for Vietnam. Use ONLY the provided context below to answer the user\x27s question. Be concise and helpful. If the context does not contain the answer, say so.\n\n## Conversation History:\n\n\n## Context from Semantic Search (most relevant):\n\n\n## Context from Related Items:\n\n\nBased on all available information, answer the user\x27s current question.\nUser\x27s Current Question: \"q\"\n" := by
  constructor
  · intro hc
    have hb := (strContains_iff _ _).mp hc
    rw [show containsSeq "none found".data
        (build_prompt (fun _ => "") "q" [] [] []).data = false from by decide]
      at hb
    cases hb
  · decide

/-- Claim C4 (amended): when the history exceeds 6 turns and the
summarization generation call fails by exhausting its retries, the
summarizer returns the generation client's fixed fallback string (not
an empty summary), `build_prompt` embeds that failure text as the
context summary — it does not fall back to the raw tail only — and the
main prompt is still fully assembled, containing the raw last-6-turn
tail (the failure never aborts the main answer). -/
theorem build_prompt_summarize_failure_embeds_fallback
    (backend : String → ℕ → ApiResult) (user_query : String)
    (vres : List VDoc) (rres : List Record) (history : List Turn)
    (h6 : 6 < history.length)
    (hTO : ∀ p n, backend p n = ApiResult.timeout) :
    summarize_conversation_context
        (fun p => call_gemini_rest backend p 2) history = timeoutFallback ∧
    StrContains ("Context Summary: " ++ timeoutFallback)
      (build_prompt (fun p => call_gemini_rest backend p 2) user_query
        vres rres history) ∧
    StrContains (String.intercalate "\n"
        ((history.drop (history.length - 6)).map fmtTurn))
      (build_prompt (fun p => call_gemini_rest backend p 2) user_query
        vres rres history) := by
  have hgen : ∀ p, call_gemini_rest backend p 2 = timeoutFallback :=
    fun p => call_gemini_rest_timeout_fb backend p 2 (by omega) (hTO p)
  have h5 : ¬ history.length < 5 := by omega
  have hps : pyStrip timeoutFallback = timeoutFallback := by decide
  have hsum : summarize_conversation_context
      (fun p => call_gemini_rest backend p 2) history = timeoutFallback := by
    simp only [summarize_conversation_context, h5, if_false, hgen, hps]
  refine ⟨hsum, ?_, ?_⟩
  · rw [← hsum]
    simp only [build_prompt]
    rw [if_pos h6]
    apply strContains_append_right
    apply strContains_append_right
    apply strContains_append_right
    apply strContains_append_right
    apply strContains_append_right
    apply strContains_append_right
    apply strContains_append_right
    apply strContains_append_left
    apply strContains_append_right
    apply strContains_append_right
    exact strContains_refl _
  · simp only [build_prompt]
    rw [if_pos h6]
    apply strContains_append_right
    apply strContains_append_right
    apply strContains_append_right
    apply strContains_append_right
    apply strContains_append_right
    apply strContains_append_right
    apply strContains_append_right
    apply strContains_append_left
    exact strContains_append_left _ _ _ (strContains_refl _)

/-- A 7-turn history used by the C4 witness and counterexample. -/
def sampleHistory : List Turn :=
  [{ role := Role.user, content := "u1" },
   { role := Role.assistant, content := "a1" },
   { role := Role.user, content := "u2" },
   { role := Role.assistant, content := "a2" },
   { role := Role.user, content := "u3" },
   { role := Role.assistant, content := "a3" },
   { role := Role.user, content := "u4" }]

/-- Witness for the amended C4 at a concrete 7-turn history and an
always-timing-out backend. -/
theorem build_prompt_summarize_failure_embeds_fallback_witness :
    summarize_conversation_context
        (fun p => call_gemini_rest (fun _ _ => ApiResult.timeout) p 2)
        sampleHistory = timeoutFallback ∧
    StrContains ("Context Summary: " ++ timeoutFallback)
      (build_prompt
        (fun p => call_gemini_rest (fun _ _ => ApiResult.timeout) p 2)
        "x" [] [] sampleHistory) ∧
    StrContains (String.intercalate "\n"
        ((sampleHistory.drop (sampleHistory.length - 6)).map fmtTurn))
      (build_prompt
        (fun p => call_gemini_rest (fun _ _ => ApiResult.timeout) p 2)
        "x" [] [] sampleHistory) :=
  build_prompt_summarize_failure_embeds_fallback
    (fun _ _ => ApiResult.timeout) "x" [] [] sampleHistory
    (by decide) (fun _ _ => rfl)

set_option maxRecDepth 80000 in
/-- Counterexample for C4: with a 7-turn history and a backend that
times out on every attempt, the assembled prompt does contain the
generation client's failure text (standing in for the summary), so
prompt assembly does not fall back to the raw tail only. -/
theorem summarize_fallback_embedded_example :
    StrContains timeoutFallback
      (build_prompt
        (fun p => call_gemini_rest (fun _ _ => ApiResult.timeout) p 2)
        "x" [] [] sampleHistory) := by
  rw [strContains_iff]
  decide
